import Mathlib

/-!
Verification of the BoxNote-to-HTML converter
(`src/Separations/boxnote_to_html_parser/html_parser.py`) against its
natural-language specification.

The Python module is shallowly embedded: JSON values become the inductive
`Json`; the raising functions `parse` / `parse_content` become functions into
`Except PyError _`; the module-level mutable globals `token` / `user` become an
explicit `ModState` threaded through `parse`.  The collaborator module
`html_mapper` is not part of the sources, so its pure formatting functions
(`get_tag_open`, `get_tag_close`, `get_base_style`, `handle_text_marks`) are
modelled from the spec, and the image handler `handle_image` is kept as an
explicit `Resolver` parameter.

`parse_content` recurses through a field lookup (`content.get('content', [])`),
which is not structural; it is therefore defined via a fuel parameter
(`parse_contentF`), with the fuel instantiated at `sizeOf` of the input, which
is shown sufficient (`parse_contentF_eq`), so the function is total, faithful
and executable.
-/

namespace BoxnoteHtml

/-- JSON values, as produced by `json.loads`.  Numbers are modelled as `Int`
(no claim depends on float behaviour); objects are association lists with
distinct keys, looked up like Python dicts. -/
inductive Json where
  | null
  | bool (b : Bool)
  | num (n : Int)
  | str (s : String)
  | arr (elems : List Json)
  | obj (fields : List (String × Json))

/-- Python dict lookup `d.get(k)` on the field list of an object. -/
def jlookup : List (String × Json) → String → Option Json
  | [], _ => none
  | (k, v) :: rest, key => if k = key then some v else jlookup rest key

mutual
/-- Executable structural size of a JSON value, used as the fuel bound of the
renderer (the derived `sizeOf` of the nested inductive has no executable
code). -/
def Json.size : Json → Nat
  | .null => 1
  | .bool _ => 1
  | .num _ => 1
  | .str _ => 1
  | .arr xs => 1 + Json.sizeL xs
  | .obj fs => 1 + Json.sizeF fs

/-- Size of a list of JSON values. -/
def Json.sizeL : List Json → Nat
  | [] => 1
  | x :: rest => 1 + Json.size x + Json.sizeL rest

/-- Size of a field list of a JSON object. -/
def Json.sizeF : List (String × Json) → Nat
  | [] => 1
  | f :: rest => 1 + Json.size f.2 + Json.sizeF rest
end

/-- Comparison of a JSON value with a Python string literal (`x == 'lit'`):
true exactly for the equal string. -/
def Json.isStrVal (j : Json) (s : String) : Bool :=
  match j with
  | .str t => t = s
  | _ => false

/-- Python truthiness (`bool(x)` is `False`): `None`, `False`, `0`, `''`,
`[]`, and the empty dict are falsy. -/
def Json.isFalsy : Json → Bool
  | .null => true
  | .bool b => !b
  | .num n => n == 0
  | .str s => s.isEmpty
  | .arr xs => xs.isEmpty
  | .obj fs => fs.isEmpty

/-- Python truthiness, positively. -/
def Json.truthy (j : Json) : Bool := !j.isFalsy

/-- Is the value a JSON array (a Python `list`)? -/
def Json.isArrB : Json → Bool
  | .arr _ => true
  | _ => false

/-- Is the value a JSON object (a Python `dict`)? -/
def Json.isObjB : Json → Bool
  | .obj _ => true
  | _ => false

/-- Is the value a JSON string? -/
def Json.isStrB : Json → Bool
  | .str _ => true
  | _ => false

/-- Python `str()` of a value as interpolated by an f-string.  The scalar
cases are faithful; the container renderings are coarse placeholders (no
claim inspects them). -/
def pyStr : Json → String
  | .str s => s
  | .num n => toString n
  | .bool true => "True"
  | .bool false => "False"
  | .null => "None"
  | .arr _ => "[...]"
  | .obj _ => "\x7b...\x7d"

/-- Python `str()` of an optional string argument (`None` renders as
`"None"`, as in `f'<title>{title}</title>'`). -/
def pyStrOpt : Option String → String
  | none => "None"
  | some s => s

/-- Errors the Python code can raise.  `malformed` stands for
`json.JSONDecodeError` / `ValueError` (the spec's `MalformedDocument`);
`keyError` for an uncaught `KeyError`; `typeError` for the uncaught
`TypeError` / `AttributeError` raised by subscripting, `**`-unpacking or
`.get` on values of the wrong shape; `imageError` for an exception escaping
the image handler. -/
inductive PyError where
  | malformed (msg : String)
  | keyError (key : String)
  | typeError
  | imageError
deriving DecidableEq

/-- Interface of `html_mapper.handle_image(attrs, title, workdir, token,
user)`: the Image Resolver collaborator of the spec.  It is a parameter of
the embedding; `Except.error` models an exception escaping it. -/
def Resolver : Type :=
  Json → Option String → Option String → Option String → Option String → Except Unit String

/-- The read-only data threaded through `parse_content`: the resolver, the
`title` / `workdir` arguments, and the module globals `token` / `user` as
read during this invocation. -/
structure Ctx where
  resolver : Resolver
  title : Option String
  workdir : Option String
  token : Option String
  user : Option String

/-- The module-level mutable globals `token` and `user` of
`html_parser.py` (lines 20-21). -/
structure ModState where
  token : Option String
  user : Option String

/-- Python truthiness of an `Option String` argument (`None` and `''` are
falsy), as used by `token = access_token if access_token else token`. -/
def optTruthy : Option String → Bool
  | none => false
  | some s => !s.isEmpty

/-- Modelled from the spec: `html_mapper.get_base_style()` is absent from the
sources; per the spec it is a static style block injected once per document.
Its exact text is irrelevant to every claim. -/
def get_base_style : String := "<style></style>"

/-- Modelled from the spec: rendering of keyword arguments into element
attributes by the Tag Catalog. -/
def renderAttrsKw (kwargs : List (String × Json)) : String :=
  String.join (kwargs.map fun kv => " " ++ kv.1 ++ "=\"" ++ pyStr kv.2 ++ "\"")

/-- Modelled from the spec: `html_mapper.get_tag_open(tag, **kwargs)` is
absent from the sources.  The `paragraph` case is pinned by the literal
`'<p style="text-align: left"></p>'` that `parse` removes in its cleanup
pass; other tags render generically. -/
def get_tag_open (tag : String) (kwargs : List (String × Json)) : String :=
  if tag = "paragraph" then
    "<p style=\"text-align: " ++ pyStr ((jlookup kwargs "alignment").getD (.str "")) ++ "\">"
  else "<" ++ tag ++ renderAttrsKw kwargs ++ ">"

/-- Modelled from the spec: `html_mapper.get_tag_close(tag, **kwargs)`,
balanced with `get_tag_open`; the `paragraph` case is pinned by the cleanup
literal in `parse`. -/
def get_tag_close (tag : String) (kwargs : List (String × Json)) : String :=
  if tag = "paragraph" then "</p>" else "</" ++ tag ++ ">"

/-- Does a `marks` value (expected: a list of mark objects) contain a mark of
the given type?  Helper for the modelled Mark Composer. -/
def hasMark (marks : Json) (t : String) : Bool :=
  match marks with
  | .arr ms => ms.any fun m =>
      match m with
      | .obj mf =>
          match jlookup mf "type" with
          | some (.str s) => s = t
          | _ => false
      | _ => false
  | _ => false

/-- Modelled from the spec: `html_mapper.handle_text_marks(marks, text)` is
absent from the sources.  Per the spec it wraps the text in one nesting layer
per recognized mark, in a fixed precedence order, ignoring unrecognized
marks, and returns the bare text when no mark applies. -/
def handle_text_marks (marks : Json) (text : Json) : String :=
  [("bold", "<strong>", "</strong>"), ("italic", "<em>", "</em>"),
   ("underline", "<u>", "</u>"), ("strikethrough", "<s>", "</s>"),
   ("link", "<a>", "</a>"), ("font_size", "<span>", "</span>"),
   ("font_color", "<span>", "</span>")].foldr
    (fun w acc => if hasMark marks w.1 then w.2.1 ++ acc ++ w.2.2 else acc)
    (pyStr text)

/-- `content.get('content', [])` on a node's field list. -/
def getContentVal (fields : List (String × Json)) : Json :=
  (jlookup fields "content").getD (.arr [])

/-- `content.get('marks', [])` on a node's field list. -/
def getMarksVal (fields : List (String × Json)) : Json :=
  (jlookup fields "marks").getD (.arr [])

/-- `content.get('text', '')` on a node's field list. -/
def getTextVal (fields : List (String × Json)) : Json :=
  (jlookup fields "text").getD (.str "")

/-- `content.get('attrs', {})` on a node's field list. -/
def getAttrsVal (fields : List (String × Json)) : Json :=
  (jlookup fields "attrs").getD (.obj [])

/-- The alignment-scanning loop of the `paragraph` branch:
`for mark in marks: if mark.get('type','') == 'alignment': alignment = mark.get('attrs',{}).get('alignment','')`,
folded over a Python list of marks with accumulator `alignment`.  A non-dict
element raises `AttributeError` at `mark.get` (modelled `typeError`). -/
def alignFold (acc : Json) : List Json → Except PyError Json
  | [] => .ok acc
  | .obj mf :: rest =>
    if ((jlookup mf "type").getD (.str "")).isStrVal "alignment" then
      match (jlookup mf "attrs").getD (.obj []) with
      | .obj af => alignFold ((jlookup af "alignment").getD (.str "")) rest
      | _ => .error .typeError
    else alignFold acc rest
  | .null :: _ => .error .typeError
  | .bool _ :: _ => .error .typeError
  | .num _ :: _ => .error .typeError
  | .str _ :: _ => .error .typeError
  | .arr _ :: _ => .error .typeError

/-- `alignment = 'left'` followed by the `for mark in marks` loop, on the raw
`marks` value.  Iterating a non-empty dict yields its string keys and
iterating a non-empty string yields characters, so `mark.get` raises
`AttributeError` at the first step; iterating a number, bool or `None`
raises `TypeError` immediately. -/
def computeAlignment : Json → Except PyError Json
  | .arr ms => alignFold (.str "left") ms
  | .obj [] => .ok (.str "left")
  | .obj (_ :: _) => .error .typeError
  | .str s => if s.isEmpty then .ok (.str "left") else .error .typeError
  | .null => .error .typeError
  | .bool _ => .error .typeError
  | .num _ => .error .typeError

/-- The for-loop of `parse_content` over a Python list: render each element
in order with the given renderer, concatenating the fragments; the first
exception aborts the loop. -/
def runList (g : Json → Except PyError (List String)) : List Json → Except PyError (List String)
  | [] => .ok []
  | x :: rest =>
    match g x with
    | .error e => .error e
    | .ok a =>
      match runList g rest with
      | .error e => .error e
      | .ok b => .ok (a ++ b)

/-- The sixteen remaining catalog types of the final `elif` of
`parse_content` (source lines 114-118). -/
def catalog16 : List String :=
  ["strong", "em", "underline", "strikethrough", "ordered_list", "bullet_list",
   "blockquote", "code_block", "check_list", "table", "table_row", "heading",
   "link", "font_size", "font_color", "horizontal_rule"]

/-- The `elif` chain of `parse_content` on the string value of `type`
(source lines 86-118), with the recursive call abstracted as `recur`, in
source order: `paragraph`, `text`, `check_list_item`, the three pass-through
containers, `image`, the sixteen remaining catalog types, and the silent
fall-through for unknown types. -/
def dispatchStr (recur : Json → Bool → Except PyError (List String)) (ctx : Ctx)
    (fields : List (String × Json)) (ignore_paragraph : Bool) (type_tag : String) :
    Except PyError (List String) :=
  if type_tag = "paragraph" then
      if ignore_paragraph then recur (getContentVal fields) false
      else
        match computeAlignment (getMarksVal fields) with
        | .error e => .error e
        | .ok alignment =>
          match recur (getContentVal fields) false with
          | .error e => .error e
          | .ok children =>
            .ok (get_tag_open "paragraph" [("alignment", alignment)]
                  :: (children ++ [get_tag_close "paragraph" []]))
    else if type_tag = "text" then
      .ok [get_tag_open "text" [],
           handle_text_marks (getMarksVal fields) (getTextVal fields),
           get_tag_close "text" []]
    else if type_tag = "check_list_item" then
      match jlookup fields "attrs" with
      | none => .error (.keyError "attrs")
      | some (.obj af) =>
        match jlookup af "checked" with
        | none => .error (.keyError "checked")
        | some checkedVal =>
          match recur (getContentVal fields) true with
          | .error e => .error e
          | .ok children =>
            .ok (get_tag_open "check_list_item"
                  [("checked", .str (if checkedVal.truthy then "checked" else "")),
                   ("x", .str (if checkedVal.truthy then "X" else "  "))]
                  :: (children ++ [get_tag_close "check_list_item" []]))
      | some _ => .error .typeError
    else if type_tag ∈ ["list_item", "table_cell", "call_out_box"] then
      match getAttrsVal fields with
      | .obj af =>
        match recur (getContentVal fields) true with
        | .error e => .error e
        | .ok children =>
          .ok (get_tag_open type_tag af :: (children ++ [get_tag_close type_tag af]))
      | _ => .error .typeError
    else if type_tag = "image" then
      match ctx.resolver (getAttrsVal fields) ctx.title ctx.workdir ctx.token ctx.user with
      | .error _ => .error .imageError
      | .ok fragment => .ok [fragment]
    else if type_tag ∈ catalog16 then
      match getAttrsVal fields with
      | .obj af =>
        match recur (getContentVal fields) false with
        | .error e => .error e
        | .ok children =>
          .ok (get_tag_open type_tag af :: (children ++ [get_tag_close type_tag af]))
      | _ => .error .typeError
    else .ok []

/-- The dict-node case of `parse_content` (source lines 82-118): a node
without a `type` field raises `ValueError`; a non-string `type` value equals
no catalog string, so the chain falls through silently; a string `type`
dispatches through the `elif` chain. -/
def dispatch (recur : Json → Bool → Except PyError (List String)) (ctx : Ctx)
    (fields : List (String × Json)) (ignore_paragraph : Bool) :
    Except PyError (List String) :=
  match jlookup fields "type" with
  | none => .error (.malformed "Invalid BoxNote content: no type field")
  | some (.str type_tag) => dispatchStr recur ctx fields ignore_paragraph type_tag
  | some _ => .ok []

/-- Fuelled form of `parse_content` (source lines 62-118): falsy content
returns immediately; a list is iterated element-wise; a non-dict, non-list
value returns silently; a dict without `type` raises `ValueError`; otherwise
the node dispatches per type.  The fuel only serves termination; it is
instantiated at `sizeOf` in `parse_content` and shown sufficient. -/
def parse_contentF : Nat → Ctx → Json → Bool → Except PyError (List String)
  | 0, _, _, _ => .error .typeError
  | f + 1, ctx, content, ignore_paragraph =>
    if content.isFalsy then .ok []
    else
      match content with
      | .arr items => runList (fun item => parse_contentF f ctx item ignore_paragraph) items
      | .obj fields => dispatch (fun j b => parse_contentF f ctx j b) ctx fields ignore_paragraph
      | _ => .ok []

/-- `parse_content(content, contents, title, workdir, ignore_paragraph)`,
with the shared output list turned into the returned fragment sequence. -/
def parse_content (ctx : Ctx) (content : Json) (ignore_paragraph : Bool) :
    Except PyError (List String) :=
  parse_contentF (Json.size content + 1) ctx content ignore_paragraph

/-- Substring test on character lists; used both by Python's `in` on strings
and to state properties of the final output string. -/
def containsSub (pat : List Char) : List Char → Bool
  | [] => pat.isEmpty
  | c :: rest => pat.isPrefixOf (c :: rest) || containsSub pat rest

/-- Python's membership test `key in container` for a string key: key lookup
on a dict, element equality on a list, substring test on a string, and
`TypeError` on anything else. -/
def pyContains (j : Json) (key : String) : Except PyError Bool :=
  match j with
  | .obj f => .ok (jlookup f key).isSome
  | .arr xs => .ok (xs.any fun x => x.isStrVal key)
  | .str s => .ok (containsSub key.data s.data)
  | _ => .error .typeError

/-- Python's `container.get(key, default)`: dict lookup with default, and
`AttributeError` (modelled `typeError`) when the receiver is not a dict. -/
def pyGet (j : Json) (key : String) (dflt : Json) : Except PyError Json :=
  match j with
  | .obj f => .ok ((jlookup f key).getD dflt)
  | _ => .error .typeError

/-- Fuelled form of Python `s.replace(pat, '')`: scan left to right; at each
position either skip a (non-overlapping) occurrence of `pat` or keep one
character.  Fuel only serves termination (each step shortens the text). -/
def pyRemoveAllF : Nat → List Char → List Char → List Char
  | 0, _, s => s
  | f + 1, pat, s =>
    match s with
    | [] => []
    | c :: rest =>
      if pat ≠ [] ∧ pat.isPrefixOf (c :: rest) then
        pyRemoveAllF f pat ((c :: rest).drop pat.length)
      else c :: pyRemoveAllF f pat rest

/-- Python `s.replace(pat, '')` — remove every occurrence of `pat`, left to
right, non-overlapping. -/
def pyRemoveAll (pat s : List Char) : List Char :=
  pyRemoveAllF (s.length + 1) pat s

/-- The empty left-aligned paragraph artifact that `parse` removes:
`'<p style="text-align: left"></p>'` (source line 58). -/
def emptyParaLit : List Char := "<p style=\"text-align: left\"></p>".data

/-- The fixed HTML skeleton of `parse` (source lines 51-58): doctype, html,
base style, head with charset meta and title, body with the rendered
fragments, closing tags — joined and passed through the
empty-paragraph cleanup.  The `filter(x is not None)` pass of the source is
the identity here, every fragment being a string. -/
def assemble (title : Option String) (body : List String) : String :=
  String.mk (pyRemoveAll emptyParaLit (String.join
    (["<!DOCTYPE html>", "<html>", get_base_style, "<head>",
      "<meta charset=\"UTF-8\">", "<title>" ++ pyStrOpt title ++ "</title>",
      "</head>", "<body>"] ++ body ++ ["</body>", "</html>"])).data)

/-- The body of `parse` after the globals are updated (source lines 37-59).
`decoded` is the result of `json.loads(boxnote_content)`, with `none`
standing for a `JSONDecodeError` (re-raised by `parse`); then the `doc` and
`doc.content` validations, the recursive rendering, and the assembly. -/
def parseResult (resolver : Resolver) (token user : Option String)
    (decoded : Option Json) (title workdir : Option String) :
    Except PyError String :=
  match decoded with
  | none => .error (.malformed "Invalid BoxNote content: JSON parse failed")
  | some boxnote =>
    match pyContains boxnote "doc" with
    | .error e => .error e
    | .ok false => .error (.malformed "Invalid BoxNote content: no doc field")
    | .ok true =>
      match pyGet boxnote "doc" (.obj []) with
      | .error e => .error e
      | .ok d1 =>
        match pyContains d1 "content" with
        | .error e => .error e
        | .ok false => .error (.malformed "Invalid BoxNote content: no content field")
        | .ok true =>
          match pyGet boxnote "doc" (.obj []) with
          | .error e => .error e
          | .ok d2 =>
            match pyGet d2 "content" (.obj []) with
            | .error e => .error e
            | .ok contentVal =>
              match parse_content ⟨resolver, title, workdir, token, user⟩ contentVal false with
              | .error e => .error e
              | .ok body => .ok (assemble title body)

/-- `parse(boxnote_content, title, workdir, access_token, user_id)`
(source lines 24-59).  The module globals are updated first
(`token = access_token if access_token else token`, same for `user`); the
updated state is returned alongside the result so that state threading
across invocations is explicit. -/
def parse (resolver : Resolver) (st : ModState) (decoded : Option Json)
    (title workdir access_token user_id : Option String) :
    ModState × Except PyError String :=
  let token := if optTruthy access_token then access_token else st.token
  let user := if optTruthy user_id then user_id else st.user
  (⟨token, user⟩, parseResult resolver token user decoded title workdir)

/-! ### Claim-side (specification) definitions

The following definitions are written from the words of the spec and of the
claims, to be compared with the source-translated functions above. -/

/-- The node types whose children are rendered, per the spec's node type
catalog (§3): `paragraph`, `check_list_item`, the three pass-through
containers, and the sixteen remaining catalog types; `text` and `image` do
not recurse, and unknown types are ignored without recursion. -/
def recursingTypes : List String :=
  ["paragraph", "check_list_item", "list_item", "table_cell", "call_out_box"] ++ catalog16

/-- The whole closed catalog of recognized node types (§3): any other `type`
string falls through the `elif` chain silently. -/
def allCatalogTypes : List String :=
  ["paragraph", "text", "check_list_item", "list_item", "table_cell",
   "call_out_box", "image"] ++ catalog16

/-- Claim-side: dispatch of the reachability predicate on a dict node — a
node with no `type` is the typeless node the claim's condition looks for;
recursion follows the spec's children-rendered column. -/
def tlDispatch (recur : Json → Bool) (fields : List (String × Json)) : Bool :=
  match jlookup fields "type" with
  | none => true
  | some (.str s) => if s ∈ recursingTypes then recur (getContentVal fields) else false
  | some _ => false

/-- Fuelled form of `typelessReached`. -/
def typelessReachedF : Nat → Json → Bool
  | 0, _ => false
  | f + 1, j =>
    if j.isFalsy then false
    else
      match j with
      | .arr items => items.any fun x => typelessReachedF f x
      | .obj fields => tlDispatch (typelessReachedF f) fields
      | _ => false

/-- Claim-side: "any node object reached during traversal lacks a `type`
field" — the depth-first traversal of §4.2 reaches a non-empty dict without
a `type` key.  Falsy values and non-dict, non-list values are skipped (§4.2
container handling), and only the types whose children are rendered recurse. -/
def typelessReached (j : Json) : Bool := typelessReachedF (Json.size j + 1) j

/-- Claim-side: "the parsed object lacks a `doc` field" / "`doc` lacks a
`content` field" — a value that is not an object has no fields at all. -/
def lacksField (j : Json) (k : String) : Bool :=
  match j with
  | .obj f => (jlookup f k).isNone
  | _ => true

/-- Claim-side: the field's value, for chaining the conditions (a missing
field yields `null`, on which every further condition is moot). -/
def getFieldD (j : Json) (k : String) : Json :=
  match j with
  | .obj f => (jlookup f k).getD .null
  | _ => .null

/-- Claim-side condition of C1: the payload is not parseable as JSON, or the
parsed object lacks `doc`, or `doc` lacks `content`, or a node without a
`type` field is reached during traversal. -/
def spec_malformed_condition : Option Json → Bool
  | none => true
  | some b =>
    lacksField b "doc" || lacksField (getFieldD b "doc") "content" ||
      typelessReached (getFieldD (getFieldD b "doc") "content")

/-- Is the error a `MalformedDocument` (a `ValueError`/`JSONDecodeError`)? -/
def PyError.isMalformed : PyError → Bool
  | .malformed _ => true
  | _ => false

/-- Did the run end in a `MalformedDocument` failure? -/
def resIsMalformed : Except PyError String → Bool
  | .error (.malformed _) => true
  | _ => false

/-- Did the run abort with an error other than `MalformedDocument`
(an uncaught `KeyError` / `TypeError` / `AttributeError`, or an exception
escaping the image handler)? -/
def resHasDyn : Except PyError String → Bool
  | .error e => !e.isMalformed
  | .ok _ => false

/-- The output string of a successful run (empty string on failure); used to
state substring facts about outputs. -/
def resOuts : Except PyError String → String
  | .ok s => s
  | .error _ => ""

/-- Did an `Except` computation succeed? -/
def isOkB {ε α : Type} : Except ε α → Bool
  | .ok _ => true
  | .error _ => false

/-- Claim-side (C5): is this mark an alignment mark
(`mark.get('type','') == 'alignment'`)? -/
def isAlignMark (m : Json) : Bool :=
  match m with
  | .obj mf => ((jlookup mf "type").getD (.str "")).isStrVal "alignment"
  | _ => false

/-- Claim-side (C5): the alignment value an alignment mark carries
(`mark.get('attrs',{}).get('alignment','')`). -/
def alignValOf (m : Json) : Json :=
  match m with
  | .obj mf =>
    match (jlookup mf "attrs").getD (.obj []) with
    | .obj af => (jlookup af "alignment").getD (.str "")
    | _ => .null
  | _ => .null

/-- Claim-side (C5): the last alignment mark of a mark list, in mark order. -/
def lastAlignMark : List Json → Option Json
  | [] => none
  | m :: rest =>
    match lastAlignMark rest with
    | some r => some r
    | none => if isAlignMark m then some m else none

/-! ### Concrete fixtures used by witnesses and counterexamples -/

/-- A resolver that always succeeds with an empty fragment. -/
def okResolver : Resolver := fun _ _ _ _ _ => .ok ""

/-- A resolver whose call always raises (models any exception escaping
`html_mapper.handle_image`). -/
def failResolver : Resolver := fun _ _ _ _ _ => .error ()

/-- A resolver whose fragment records the auth token it was handed —
a resolver allowed by the spec's interface, used to observe that the
module-level token reaches the output. -/
def tokenResolver : Resolver :=
  fun _ _ _ token _ => .ok ("<img data-token=\"" ++ pyStrOpt token ++ "\">")

/-- A concrete render context: no title, workdir or auth data. -/
def ctx0 : Ctx := ⟨okResolver, none, none, none, none⟩

/-- A fresh module state: no earlier invocation has set the globals. -/
def st0 : ModState := ⟨none, none⟩

/-- A text node carrying the given text. -/
def textNode (s : String) : Json := .obj [("type", .str "text"), ("text", .str s)]

/-- A paragraph node with the given `content` value and no marks. -/
def paragraphNode (inner : Json) : Json :=
  .obj [("type", .str "paragraph"), ("content", inner)]

/-- An alignment mark carrying the given alignment value. -/
def alignMark (a : String) : Json :=
  .obj [("type", .str "alignment"), ("attrs", .obj [("alignment", .str a)])]

/-- An image node with a file-reference attribute. -/
def imageNode : Json :=
  .obj [("type", .str "image"), ("attrs", .obj [("boxSharedLink", .str "link")])]

/-- A paragraph wrapping a single text node. -/
def paraText (s : String) : Json := paragraphNode (.arr [textNode s])

/-- A document whose content is the given node list. -/
def docOf (nodes : List Json) : Json :=
  .obj [("doc", .obj [("content", .arr nodes)])]

/-- A document whose first node is a `check_list_item` with no `attrs`
(raising `KeyError`) and whose second node is a non-empty object with no
`type` field. -/
def brokenChecklistDoc : Json :=
  docOf [.obj [("type", .str "check_list_item")], .obj [("foo", .num 1)]]

/-- A document with one non-empty object node lacking a `type` field. -/
def typelessNodeDoc : Json := docOf [.obj [("foo", .num 1)]]

/-- A `table_cell` containing a `blockquote` containing a paragraph with
text: the paragraph's ancestors include a suppressing container, but a
catalog node stands in between. -/
def deepParagraphDoc : Json :=
  docOf [.obj [("type", .str "table_cell"),
    ("content", .arr [.obj [("type", .str "blockquote"),
      ("content", .arr [paraText "Deep"])]])]]

/-- A document with a single empty paragraph carrying a center alignment
mark. -/
def centerEmptyParaDoc : Json :=
  docOf [.obj [("type", .str "paragraph"), ("marks", .arr [alignMark "center"]),
    ("content", .arr [])]]

/-- A document with a text paragraph, an empty (default-aligned) paragraph,
and another text paragraph. -/
def threeParaDoc : Json :=
  docOf [paraText "Hello", paragraphNode (.arr []), paraText "World"]

/-- A document with an image node between two healthy text paragraphs. -/
def imageBetweenParasDoc : Json := docOf [paraText "a", imageNode, paraText "b"]

/-- A document whose only node is an image. -/
def singleImageDoc : Json := docOf [imageNode]

/-! ### Size lemmas (termination bookkeeping for the fuel) -/

theorem Json.size_pos : ∀ j : Json, 0 < j.size := by
  intro j
  cases j <;> simp [Json.size]

theorem Json.sizeF_pos : ∀ fs : List (String × Json), 0 < Json.sizeF fs := by
  intro fs
  cases fs <;> simp [Json.sizeF]

theorem jlookup_size {fields : List (String × Json)} {k : String} {v : Json}
    (h : jlookup fields k = some v) : Json.size v < Json.size (Json.obj fields) := by
  induction fields with
  | nil => simp [jlookup] at h
  | cons f rest ih =>
    obtain ⟨fk, fv⟩ := f
    rw [jlookup] at h
    by_cases hk : fk = k
    · rw [if_pos hk] at h
      obtain rfl : fv = v := by injection h
      simp only [Json.size, Json.sizeF]
      omega
    · rw [if_neg hk] at h
      have := ih h
      simp only [Json.size, Json.sizeF] at this ⊢
      have := Json.size_pos fv
      omega

theorem jlookup_ne_nil {fields : List (String × Json)} {k : String} {v : Json}
    (h : jlookup fields k = some v) : fields ≠ [] := by
  intro hcon
  subst hcon
  simp [jlookup] at h

theorem getContentVal_size {fields : List (String × Json)} (h : fields ≠ []) :
    Json.size (getContentVal fields) < Json.size (Json.obj fields) := by
  unfold getContentVal
  cases hc : jlookup fields "content" with
  | some v => simpa using jlookup_size hc
  | none =>
    match fields, h with
    | f :: rest, _ =>
      simp only [Option.getD, Json.size, Json.sizeL, Json.sizeF]
      have := Json.size_pos f.2
      have := Json.sizeF_pos rest
      omega

theorem mem_size {x : Json} {items : List Json} (h : x ∈ items) :
    Json.size x < Json.size (Json.arr items) := by
  induction items with
  | nil => cases h
  | cons y rest ih =>
    rcases List.mem_cons.mp h with rfl | h2
    · simp only [Json.size, Json.sizeL]
      omega
    · have hx := ih h2
      simp only [Json.size, Json.sizeL] at hx ⊢
      omega

/-! ### Fuel irrelevance: the fuelled renderer agrees with `parse_content`
on every sufficient fuel -/

theorem runList_congr {g1 g2 : Json → Except PyError (List String)} :
    ∀ {l : List Json}, (∀ x ∈ l, g1 x = g2 x) → runList g1 l = runList g2 l := by
  intro l
  induction l with
  | nil => intro _; rfl
  | cons y rest ih =>
    intro h
    rw [runList, runList, h y (List.mem_cons_self y rest),
      ih fun x hx => h x (List.mem_cons_of_mem y hx)]

theorem dispatchStr_congr {r1 r2 : Json → Bool → Except PyError (List String)} {ctx : Ctx}
    {fields : List (String × Json)} {ig : Bool} {s : String}
    (h : ∀ b, r1 (getContentVal fields) b = r2 (getContentVal fields) b) :
    dispatchStr r1 ctx fields ig s = dispatchStr r2 ctx fields ig s := by
  unfold dispatchStr
  rw [h false, h true]

theorem dispatch_congr {r1 r2 : Json → Bool → Except PyError (List String)} {ctx : Ctx}
    {fields : List (String × Json)} {ig : Bool}
    (h : ∀ b, r1 (getContentVal fields) b = r2 (getContentVal fields) b) :
    dispatch r1 ctx fields ig = dispatch r2 ctx fields ig := by
  unfold dispatch
  cases jlookup fields "type" with
  | none => rfl
  | some t => cases t <;> first | rfl | exact dispatchStr_congr h

theorem parse_contentF_eq : ∀ (f : Nat) (j : Json), Json.size j < f →
    ∀ (ctx : Ctx) (ig : Bool), parse_contentF f ctx j ig = parse_content ctx j ig := by
  intro f
  induction f using Nat.strong_induction_on with
  | _ f ih =>
    intro j hj ctx ig
    cases f with
    | zero => exact absurd hj (Nat.not_lt_zero _)
    | succ n =>
      unfold parse_content
      simp only [parse_contentF]
      by_cases hf : j.isFalsy
      · simp [hf]
      · simp only [hf, Bool.false_eq_true, if_false]
        cases j with
        | null => rfl
        | bool b => rfl
        | num m => rfl
        | str s => rfl
        | arr items =>
          have h1 : ∀ x ∈ items, parse_contentF n ctx x ig = parse_content ctx x ig :=
            fun x hx => ih n (Nat.lt_succ_self n) x
              (lt_of_lt_of_le (mem_size hx) (Nat.lt_succ_iff.mp hj)) ctx ig
          have h2 : ∀ x ∈ items,
              parse_contentF (Json.size (Json.arr items)) ctx x ig = parse_content ctx x ig :=
            fun x hx => ih (Json.size (Json.arr items)) hj x (mem_size hx) ctx ig
          dsimp only
          rw [runList_congr h1, runList_congr h2]
        | obj fields =>
          have hne : fields ≠ [] := by
            simpa [Json.isFalsy, List.isEmpty_iff] using hf
          have hsz := getContentVal_size hne
          have h1 : ∀ b, parse_contentF n ctx (getContentVal fields) b =
              parse_content ctx (getContentVal fields) b :=
            fun b => ih n (Nat.lt_succ_self n) _
              (lt_of_lt_of_le hsz (Nat.lt_succ_iff.mp hj)) ctx b
          have h2 : ∀ b, parse_contentF (Json.size (Json.obj fields)) ctx (getContentVal fields) b =
              parse_content ctx (getContentVal fields) b :=
            fun b => ih (Json.size (Json.obj fields)) hj _ hsz ctx b
          dsimp only
          rw [dispatch_congr h1, dispatch_congr h2]

/-! ### Step lemmas: one-level unfoldings of `parse_content` -/

theorem parse_content_falsy (ctx : Ctx) {j : Json} (h : j.isFalsy = true) (ig : Bool) :
    parse_content ctx j ig = .ok [] := by
  unfold parse_content
  simp [parse_contentF, h]

theorem parse_content_scalar (ctx : Ctx) {j : Json} (h1 : j.isArrB = false)
    (h2 : j.isObjB = false) (ig : Bool) : parse_content ctx j ig = .ok [] := by
  cases j <;> simp_all [Json.isArrB, Json.isObjB] <;>
    · unfold parse_content
      simp only [parse_contentF]
      split <;> rfl

theorem parse_content_arr (ctx : Ctx) (items : List Json) (ig : Bool) :
    parse_content ctx (.arr items) ig = runList (fun x => parse_content ctx x ig) items := by
  cases items with
  | nil => rw [parse_content_falsy ctx (by simp [Json.isFalsy]) ig]; rfl
  | cons y rest =>
    unfold parse_content
    simp only [parse_contentF, Json.isFalsy, List.isEmpty_cons, Bool.false_eq_true, if_false]
    exact runList_congr fun x hx => parse_contentF_eq _ x (mem_size hx) ctx ig

theorem parse_content_obj (ctx : Ctx) {fields : List (String × Json)} (hne : fields ≠ [])
    (ig : Bool) :
    parse_content ctx (.obj fields) ig = dispatch (fun j b => parse_content ctx j b) ctx fields ig := by
  unfold parse_content
  simp only [parse_contentF, Json.isFalsy, List.isEmpty_eq_false.mpr hne,
    Bool.false_eq_true, if_false]
  exact dispatch_congr fun b => parse_contentF_eq _ _ (getContentVal_size hne) ctx b

theorem any_congr {f1 f2 : Json → Bool} :
    ∀ {l : List Json}, (∀ x ∈ l, f1 x = f2 x) → l.any f1 = l.any f2 := by
  intro l
  induction l with
  | nil => intro _; rfl
  | cons y rest ih =>
    intro h
    simp only [List.any_cons, h y (List.mem_cons_self y rest),
      ih fun x hx => h x (List.mem_cons_of_mem y hx)]

theorem tlDispatch_congr {r1 r2 : Json → Bool} {fields : List (String × Json)}
    (h : r1 (getContentVal fields) = r2 (getContentVal fields)) :
    tlDispatch r1 fields = tlDispatch r2 fields := by
  unfold tlDispatch
  rw [h]

theorem typelessReachedF_eq : ∀ (f : Nat) (j : Json), Json.size j < f →
    typelessReachedF f j = typelessReached j := by
  intro f
  induction f using Nat.strong_induction_on with
  | _ f ih =>
    intro j hj
    cases f with
    | zero => exact absurd hj (Nat.not_lt_zero _)
    | succ n =>
      unfold typelessReached
      simp only [typelessReachedF]
      by_cases hf : j.isFalsy
      · simp [hf]
      · simp only [hf, Bool.false_eq_true, if_false]
        cases j with
        | null => rfl
        | bool b => rfl
        | num m => rfl
        | str s => rfl
        | arr items =>
          have h1 : ∀ x ∈ items, typelessReachedF n x = typelessReached x :=
            fun x hx => ih n (Nat.lt_succ_self n) x
              (lt_of_lt_of_le (mem_size hx) (Nat.lt_succ_iff.mp hj))
          have h2 : ∀ x ∈ items,
              typelessReachedF (Json.size (Json.arr items)) x = typelessReached x :=
            fun x hx => ih (Json.size (Json.arr items)) hj x (mem_size hx)
          dsimp only
          rw [any_congr h1, any_congr h2]
        | obj fields =>
          have hne : fields ≠ [] := by
            simpa [Json.isFalsy, List.isEmpty_iff] using hf
          have hsz := getContentVal_size hne
          have h1 : typelessReachedF n (getContentVal fields) =
              typelessReached (getContentVal fields) :=
            ih n (Nat.lt_succ_self n) _ (lt_of_lt_of_le hsz (Nat.lt_succ_iff.mp hj))
          have h2 : typelessReachedF (Json.size (Json.obj fields)) (getContentVal fields) =
              typelessReached (getContentVal fields) :=
            ih (Json.size (Json.obj fields)) hj _ hsz
          dsimp only
          rw [tlDispatch_congr h1, tlDispatch_congr h2]

theorem typelessReached_falsy {j : Json} (h : j.isFalsy = true) :
    typelessReached j = false := by
  unfold typelessReached
  simp [typelessReachedF, h]

theorem typelessReached_scalar {j : Json} (h1 : j.isArrB = false) (h2 : j.isObjB = false) :
    typelessReached j = false := by
  cases j <;> simp_all [Json.isArrB, Json.isObjB] <;>
    · unfold typelessReached
      simp only [typelessReachedF]
      split <;> rfl

theorem typelessReached_arr (items : List Json) :
    typelessReached (.arr items) = items.any typelessReached := by
  cases items with
  | nil => rw [typelessReached_falsy (by simp [Json.isFalsy])]; rfl
  | cons y rest =>
    unfold typelessReached
    simp only [typelessReachedF, Json.isFalsy, List.isEmpty_cons, Bool.false_eq_true, if_false]
    exact any_congr fun x hx => typelessReachedF_eq _ x (mem_size hx)

theorem typelessReached_obj {fields : List (String × Json)} (hne : fields ≠ []) :
    typelessReached (.obj fields) = tlDispatch typelessReached fields := by
  unfold typelessReached
  simp only [typelessReachedF, Json.isFalsy, List.isEmpty_eq_false.mpr hne,
    Bool.false_eq_true, if_false]
  exact tlDispatch_congr (typelessReachedF_eq _ _ (getContentVal_size hne))

/-! ### Branch lemmas: the dict-node dispatch of `parse_content` -/

theorem parse_content_no_type (ctx : Ctx) {fields : List (String × Json)} (hne : fields ≠ [])
    (ht : jlookup fields "type" = none) (ig : Bool) :
    parse_content ctx (.obj fields) ig =
      .error (.malformed "Invalid BoxNote content: no type field") := by
  rw [parse_content_obj ctx hne ig]
  unfold dispatch
  rw [ht]

theorem parse_content_typed (ctx : Ctx) {fields : List (String × Json)} {s : String}
    (ht : jlookup fields "type" = some (.str s)) (ig : Bool) :
    parse_content ctx (.obj fields) ig =
      dispatchStr (fun j b => parse_content ctx j b) ctx fields ig s := by
  rw [parse_content_obj ctx (jlookup_ne_nil ht) ig]
  unfold dispatch
  rw [ht]

theorem parse_content_nonstr_type (ctx : Ctx) {fields : List (String × Json)} {t : Json}
    (ht : jlookup fields "type" = some t) (hs : t.isStrB = false) (ig : Bool) :
    parse_content ctx (.obj fields) ig = .ok [] := by
  rw [parse_content_obj ctx (jlookup_ne_nil ht) ig]
  unfold dispatch
  rw [ht]
  cases t <;> first | rfl | simp [Json.isStrB] at hs

theorem typelessReached_no_type {fields : List (String × Json)} (hne : fields ≠ [])
    (ht : jlookup fields "type" = none) : typelessReached (.obj fields) = true := by
  rw [typelessReached_obj hne]
  unfold tlDispatch
  rw [ht]

theorem typelessReached_typed {fields : List (String × Json)} {s : String}
    (ht : jlookup fields "type" = some (.str s)) :
    typelessReached (.obj fields) =
      if s ∈ recursingTypes then typelessReached (getContentVal fields) else false := by
  rw [typelessReached_obj (jlookup_ne_nil ht)]
  unfold tlDispatch
  rw [ht]

theorem typelessReached_nonstr {fields : List (String × Json)} {t : Json}
    (ht : jlookup fields "type" = some t) (hs : t.isStrB = false) :
    typelessReached (.obj fields) = false := by
  rw [typelessReached_obj (jlookup_ne_nil ht)]
  unfold tlDispatch
  rw [ht]
  cases t <;> first | rfl | simp [Json.isStrB] at hs

/-! ### The alignment scan -/

theorem alignFold_error {e : PyError} :
    ∀ {ms : List Json} {acc : Json}, alignFold acc ms = .error e → e = .typeError := by
  intro ms
  induction ms with
  | nil => intro acc h; simp [alignFold] at h
  | cons m rest ih =>
    intro acc h
    cases m <;> rw [alignFold] at h
    case obj mf =>
      by_cases hm : ((jlookup mf "type").getD (.str "")).isStrVal "alignment"
      · rw [if_pos hm] at h
        cases hattr : (jlookup mf "attrs").getD (.obj []) <;> rw [hattr] at h <;>
          first
          | exact ih h
          | (injection h with h; exact h.symm)
      · rw [if_neg hm] at h; exact ih h
    all_goals (injection h with h; exact h.symm)

theorem computeAlignment_error {mj : Json} {e : PyError}
    (h : computeAlignment mj = .error e) : e = .typeError := by
  cases mj
  case arr ms => rw [computeAlignment] at h; exact alignFold_error h
  case obj fs =>
    cases fs with
    | nil => rw [computeAlignment] at h; cases h
    | cons f rest => rw [computeAlignment] at h; injection h with h; exact h.symm
  case str s =>
    rw [computeAlignment] at h
    by_cases he : s.isEmpty
    · rw [if_pos he] at h; cases h
    · rw [if_neg he] at h; injection h with h; exact h.symm
  all_goals (rw [computeAlignment] at h; injection h with h; exact h.symm)

theorem alignFold_ok : ∀ (ms : List Json) (acc v : Json), alignFold acc ms = .ok v →
    v = (match lastAlignMark ms with | none => acc | some m => alignValOf m) := by
  intro ms
  induction ms with
  | nil =>
    intro acc v h
    simp only [alignFold] at h
    injection h with h
    simp [lastAlignMark, h.symm]
  | cons m rest ih =>
    intro acc v h
    cases m <;> rw [alignFold] at h
    case obj mf =>
      by_cases hm : ((jlookup mf "type").getD (.str "")).isStrVal "alignment"
      · rw [if_pos hm] at h
        cases hattr : (jlookup mf "attrs").getD (.obj []) with
        | obj af =>
          rw [hattr] at h
          have hv := ih _ _ h
          rw [lastAlignMark]
          cases hl : lastAlignMark rest with
          | some r => rw [hl] at hv; simpa using hv
          | none =>
            rw [hl] at hv
            have hal : isAlignMark (.obj mf) = true := by simp [isAlignMark, hm]
            simp only [hal, if_true]
            simpa [alignValOf, hattr] using hv
        | null => rw [hattr] at h; cases h
        | bool b => rw [hattr] at h; cases h
        | num n => rw [hattr] at h; cases h
        | str s => rw [hattr] at h; cases h
        | arr xs => rw [hattr] at h; cases h
      · rw [if_neg hm] at h
        have hv := ih _ _ h
        have hal : isAlignMark (.obj mf) = false := by simp [isAlignMark, hm]
        rw [lastAlignMark]
        cases hl : lastAlignMark rest with
        | some r => rw [hl] at hv; simpa using hv
        | none => rw [hl] at hv; simp only [hal, Bool.false_eq_true, if_false]; simpa using hv
    all_goals cases h

/-! ### A `MalformedDocument` failure of the renderer is equivalent, up to
dynamic errors, to reaching a typeless node -/

theorem runList_malformed {g : Json → Except PyError (List String)} {tl : Json → Bool} :
    ∀ {l : List Json},
      (∀ x ∈ l, ∀ m, g x = .error (.malformed m) → tl x = true) →
      ∀ m, runList g l = .error (.malformed m) → l.any tl = true := by
  intro l
  induction l with
  | nil => intro _ m h; simp [runList] at h
  | cons y rest ih =>
    intro hA m h
    rw [runList] at h
    cases hy : g y with
    | error e =>
      rw [hy] at h
      injection h with h
      subst h
      simp [hA y (List.mem_cons_self y rest) m hy]
    | ok a =>
      rw [hy] at h
      cases hr : runList g rest with
      | error e2 =>
        rw [hr] at h
        injection h with h
        subst h
        simp [ih (fun x hx => hA x (List.mem_cons_of_mem y hx)) m hr]
      | ok b => rw [hr] at h; cases h

theorem runList_not_ok {g : Json → Except PyError (List String)} {tl : Json → Bool} :
    ∀ {l : List Json},
      (∀ x ∈ l, tl x = true → isOkB (g x) = false) →
      l.any tl = true → isOkB (runList g l) = false := by
  intro l
  induction l with
  | nil => intro _ h; simp at h
  | cons y rest ih =>
    intro hB hany
    rw [runList]
    by_cases hy : tl y = true
    · have := hB y (List.mem_cons_self y rest) hy
      cases hgy : g y with
      | error e => rfl
      | ok a => rw [hgy] at this; cases this
    · have hrest : rest.any tl = true := by
        simp only [List.any_cons] at hany
        rcases Bool.or_eq_true_iff.mp hany with h | h
        · exact absurd h hy
        · exact h
      cases hgy : g y with
      | error e => rfl
      | ok a =>
        have := ih (fun x hx => hB x (List.mem_cons_of_mem y hx)) hrest
        cases hr : runList g rest with
        | error e2 => rfl
        | ok b => rw [hr] at this; cases this

theorem parse_content_typeless :
    ∀ (n : Nat) (j : Json), Json.size j ≤ n → ∀ (ctx : Ctx) (flag : Bool),
      (∀ m, parse_content ctx j flag = .error (.malformed m) → typelessReached j = true) ∧
      (typelessReached j = true → isOkB (parse_content ctx j flag) = false) := by
  intro n
  induction n using Nat.strong_induction_on with
  | _ n ih =>
    intro j hj ctx flag
    by_cases hf : j.isFalsy
    · rw [parse_content_falsy ctx hf, typelessReached_falsy hf]
      exact ⟨fun m h => (nomatch h), fun h => (nomatch h)⟩
    · cases j with
      | null => simp [Json.isFalsy] at hf
      | bool b =>
        rw [@parse_content_scalar ctx (.bool b) rfl rfl, @typelessReached_scalar (.bool b) rfl rfl]
        exact ⟨fun m h => (nomatch h), fun h => (nomatch h)⟩
      | num m2 =>
        rw [@parse_content_scalar ctx (.num m2) rfl rfl, @typelessReached_scalar (.num m2) rfl rfl]
        exact ⟨fun m h => (nomatch h), fun h => (nomatch h)⟩
      | str s =>
        rw [@parse_content_scalar ctx (.str s) rfl rfl, @typelessReached_scalar (.str s) rfl rfl]
        exact ⟨fun m h => (nomatch h), fun h => (nomatch h)⟩
      | arr items =>
        rw [parse_content_arr, typelessReached_arr]
        have ihx : ∀ x ∈ items, ∀ (b : Bool),
            (∀ m, parse_content ctx x b = .error (.malformed m) → typelessReached x = true) ∧
            (typelessReached x = true → isOkB (parse_content ctx x b) = false) :=
          fun x hx b =>
            ih (Json.size x) (lt_of_lt_of_le (mem_size hx) hj) x le_rfl ctx b
        constructor
        · intro m h
          exact runList_malformed (fun x hx => (ihx x hx flag).1) m h
        · intro h
          exact runList_not_ok (fun x hx => (ihx x hx flag).2) h
      | obj fields =>
        have hne : fields ≠ [] := by
          simpa [Json.isFalsy, List.isEmpty_iff] using hf
        have ihc : ∀ (b : Bool),
            (∀ m, parse_content ctx (getContentVal fields) b = .error (.malformed m) →
              typelessReached (getContentVal fields) = true) ∧
            (typelessReached (getContentVal fields) = true →
              isOkB (parse_content ctx (getContentVal fields) b) = false) :=
          fun b =>
            ih (Json.size (getContentVal fields))
              (lt_of_lt_of_le (getContentVal_size hne) hj) _ le_rfl ctx b
        cases htype : jlookup fields "type" with
        | none =>
          rw [parse_content_no_type ctx hne htype flag, typelessReached_no_type hne htype]
          exact ⟨fun m h => rfl, fun h => rfl⟩
        | some t =>
          cases t with
          | str s =>
            rw [parse_content_typed ctx htype flag, typelessReached_typed htype]
            unfold dispatchStr
            dsimp only
            by_cases h1 : s = "paragraph"
            · subst h1
              rw [if_pos rfl, if_pos (by decide : "paragraph" ∈ recursingTypes)]
              cases flag with
              | true =>
                rw [if_pos rfl]
                exact ⟨(ihc false).1, (ihc false).2⟩
              | false =>
                rw [if_neg (by simp)]
                cases halign : computeAlignment (getMarksVal fields) with
                | error e =>
                  refine ⟨fun m h => ?_, fun h => rfl⟩
                  injection h with h
                  subst h
                  exact absurd (computeAlignment_error halign) (by simp)
                | ok al =>
                  dsimp only
                  cases hch : parse_content ctx (getContentVal fields) false with
                  | error e =>
                    refine ⟨fun m h => ?_, fun h => rfl⟩
                    injection h with h
                    subst h
                    exact (ihc false).1 m hch
                  | ok children =>
                    refine ⟨fun m h => (nomatch h), fun h => ?_⟩
                    have := (ihc false).2 h
                    rw [hch] at this
                    cases this
            · rw [if_neg h1]
              by_cases h2 : s = "text"
              · subst h2
                rw [if_pos rfl, if_neg (by decide : ¬ "text" ∈ recursingTypes)]
                exact ⟨fun m h => (nomatch h), fun h => (nomatch h)⟩
              · rw [if_neg h2]
                by_cases h3 : s = "check_list_item"
                · subst h3
                  rw [if_pos rfl, if_pos (by decide : "check_list_item" ∈ recursingTypes)]
                  cases hattrs : jlookup fields "attrs" with
                  | none => exact ⟨fun m h => (nomatch h), fun h => rfl⟩
                  | some a =>
                    cases a with
                    | obj af =>
                      dsimp only
                      cases hck : jlookup af "checked" with
                      | none => exact ⟨fun m h => (nomatch h), fun h => rfl⟩
                      | some cv =>
                        dsimp only
                        cases hch : parse_content ctx (getContentVal fields) true with
                        | error e =>
                          refine ⟨fun m h => ?_, fun h => rfl⟩
                          injection h with h
                          subst h
                          exact (ihc true).1 m hch
                        | ok children =>
                          refine ⟨fun m h => (nomatch h), fun h => ?_⟩
                          have := (ihc true).2 h
                          rw [hch] at this
                          cases this
                    | null => exact ⟨fun m h => (nomatch h), fun h => rfl⟩
                    | bool b => exact ⟨fun m h => (nomatch h), fun h => rfl⟩
                    | num n2 => exact ⟨fun m h => (nomatch h), fun h => rfl⟩
                    | str s2 => exact ⟨fun m h => (nomatch h), fun h => rfl⟩
                    | arr xs => exact ⟨fun m h => (nomatch h), fun h => rfl⟩
                · rw [if_neg h3]
                  by_cases h4 : s ∈ ["list_item", "table_cell", "call_out_box"]
                  · rw [if_pos h4, if_pos (by
                      simp only [List.mem_cons, List.not_mem_nil, or_false] at h4
                      rcases h4 with rfl | rfl | rfl <;> decide)]
                    cases hattrs : getAttrsVal fields with
                    | obj af =>
                      dsimp only
                      cases hch : parse_content ctx (getContentVal fields) true with
                      | error e =>
                        refine ⟨fun m h => ?_, fun h => rfl⟩
                        injection h with h
                        subst h
                        exact (ihc true).1 m hch
                      | ok children =>
                        refine ⟨fun m h => (nomatch h), fun h => ?_⟩
                        have := (ihc true).2 h
                        rw [hch] at this
                        cases this
                    | null => exact ⟨fun m h => (nomatch h), fun h => rfl⟩
                    | bool b => exact ⟨fun m h => (nomatch h), fun h => rfl⟩
                    | num n2 => exact ⟨fun m h => (nomatch h), fun h => rfl⟩
                    | str s2 => exact ⟨fun m h => (nomatch h), fun h => rfl⟩
                    | arr xs => exact ⟨fun m h => (nomatch h), fun h => rfl⟩
                  · rw [if_neg h4]
                    by_cases h5 : s = "image"
                    · subst h5
                      rw [if_pos rfl, if_neg (by decide : ¬ "image" ∈ recursingTypes)]
                      cases ctx.resolver (getAttrsVal fields) ctx.title ctx.workdir ctx.token ctx.user with
                      | error e => exact ⟨fun m h => (nomatch h), fun h => (nomatch h)⟩
                      | ok frag => exact ⟨fun m h => (nomatch h), fun h => (nomatch h)⟩
                    · rw [if_neg h5]
                      by_cases h6 : s ∈ catalog16
                      · rw [if_pos h6, if_pos (by
                          simp only [recursingTypes, List.mem_append]
                          exact Or.inr h6)]
                        cases hattrs : getAttrsVal fields with
                        | obj af =>
                          dsimp only
                          cases hch : parse_content ctx (getContentVal fields) false with
                          | error e =>
                            refine ⟨fun m h => ?_, fun h => rfl⟩
                            injection h with h
                            subst h
                            exact (ihc false).1 m hch
                          | ok children =>
                            refine ⟨fun m h => (nomatch h), fun h => ?_⟩
                            have := (ihc false).2 h
                            rw [hch] at this
                            cases this
                        | null => exact ⟨fun m h => (nomatch h), fun h => rfl⟩
                        | bool b => exact ⟨fun m h => (nomatch h), fun h => rfl⟩
                        | num n2 => exact ⟨fun m h => (nomatch h), fun h => rfl⟩
                        | str s2 => exact ⟨fun m h => (nomatch h), fun h => rfl⟩
                        | arr xs => exact ⟨fun m h => (nomatch h), fun h => rfl⟩
                      · rw [if_neg h6, if_neg (by
                          intro hmem
                          simp only [recursingTypes, List.mem_append, List.mem_cons,
                            List.not_mem_nil, or_false] at hmem
                          rcases hmem with (rfl | rfl | rfl | rfl | rfl) | hmem
                          · exact h1 rfl
                          · exact h3 rfl
                          · exact h4 (by decide)
                          · exact h4 (by decide)
                          · exact h4 (by decide)
                          · exact h6 hmem)]
                        exact ⟨fun m h => (nomatch h), fun h => (nomatch h)⟩
          | null =>
            rw [parse_content_nonstr_type ctx htype rfl flag, typelessReached_nonstr htype rfl]
            exact ⟨fun m h => (nomatch h), fun h => (nomatch h)⟩
          | bool b =>
            rw [parse_content_nonstr_type ctx htype rfl flag, typelessReached_nonstr htype rfl]
            exact ⟨fun m h => (nomatch h), fun h => (nomatch h)⟩
          | num n2 =>
            rw [parse_content_nonstr_type ctx htype rfl flag, typelessReached_nonstr htype rfl]
            exact ⟨fun m h => (nomatch h), fun h => (nomatch h)⟩
          | arr xs =>
            rw [parse_content_nonstr_type ctx htype rfl flag, typelessReached_nonstr htype rfl]
            exact ⟨fun m h => (nomatch h), fun h => (nomatch h)⟩
          | obj fs2 =>
            rw [parse_content_nonstr_type ctx htype rfl flag, typelessReached_nonstr htype rfl]
            exact ⟨fun m h => (nomatch h), fun h => (nomatch h)⟩

theorem parse_content_malformed {ctx : Ctx} {j : Json} {flag : Bool} {m : String}
    (h : parse_content ctx j flag = .error (.malformed m)) : typelessReached j = true :=
  (parse_content_typeless (Json.size j) j le_rfl ctx flag).1 m h

theorem parse_content_of_typeless {ctx : Ctx} {j : Json} {flag : Bool}
    (h : typelessReached j = true) : isOkB (parse_content ctx j flag) = false :=
  (parse_content_typeless (Json.size j) j le_rfl ctx flag).2 h

/-! ### Specialized branch lemmas for the individual catalog types -/

theorem parse_content_paragraph (ctx : Ctx) {fields : List (String × Json)}
    (ht : jlookup fields "type" = some (.str "paragraph")) :
    parse_content ctx (.obj fields) false =
      match computeAlignment (getMarksVal fields) with
      | .error e => .error e
      | .ok alignment =>
        match parse_content ctx (getContentVal fields) false with
        | .error e => .error e
        | .ok children =>
          .ok (get_tag_open "paragraph" [("alignment", alignment)]
                :: (children ++ [get_tag_close "paragraph" []])) := by
  rw [parse_content_typed ctx ht false]
  unfold dispatchStr
  rw [if_pos rfl, if_neg (by simp)]

theorem parse_content_paragraph_suppressed (ctx : Ctx) {fields : List (String × Json)}
    (ht : jlookup fields "type" = some (.str "paragraph")) :
    parse_content ctx (.obj fields) true = parse_content ctx (getContentVal fields) false := by
  rw [parse_content_typed ctx ht true]
  unfold dispatchStr
  rw [if_pos rfl, if_pos rfl]

theorem parse_content_text (ctx : Ctx) {fields : List (String × Json)}
    (ht : jlookup fields "type" = some (.str "text")) (ig : Bool) :
    parse_content ctx (.obj fields) ig =
      .ok [get_tag_open "text" [],
           handle_text_marks (getMarksVal fields) (getTextVal fields),
           get_tag_close "text" []] := by
  rw [parse_content_typed ctx ht ig]
  unfold dispatchStr
  rw [if_neg (by decide), if_pos rfl]

theorem parse_content_cli_no_attrs (ctx : Ctx) {fields : List (String × Json)}
    (ht : jlookup fields "type" = some (.str "check_list_item"))
    (ha : jlookup fields "attrs" = none) (ig : Bool) :
    parse_content ctx (.obj fields) ig = .error (.keyError "attrs") := by
  rw [parse_content_typed ctx ht ig]
  unfold dispatchStr
  rw [if_neg (by decide), if_neg (by decide), if_pos rfl, ha]

theorem parse_content_cli_no_checked (ctx : Ctx) {fields af : List (String × Json)}
    (ht : jlookup fields "type" = some (.str "check_list_item"))
    (ha : jlookup fields "attrs" = some (.obj af))
    (hc : jlookup af "checked" = none) (ig : Bool) :
    parse_content ctx (.obj fields) ig = .error (.keyError "checked") := by
  rw [parse_content_typed ctx ht ig]
  unfold dispatchStr
  rw [if_neg (by decide), if_neg (by decide), if_pos rfl, ha]
  dsimp only
  rw [hc]

theorem parse_content_check_list_item (ctx : Ctx) {fields af : List (String × Json)}
    {cv : Json} (ht : jlookup fields "type" = some (.str "check_list_item"))
    (ha : jlookup fields "attrs" = some (.obj af))
    (hc : jlookup af "checked" = some cv) (ig : Bool) :
    parse_content ctx (.obj fields) ig =
      match parse_content ctx (getContentVal fields) true with
      | .error e => .error e
      | .ok children =>
        .ok (get_tag_open "check_list_item"
              [("checked", .str (if cv.truthy then "checked" else "")),
               ("x", .str (if cv.truthy then "X" else "  "))]
              :: (children ++ [get_tag_close "check_list_item" []])) := by
  rw [parse_content_typed ctx ht ig]
  unfold dispatchStr
  rw [if_neg (by decide), if_neg (by decide), if_pos rfl, ha]
  dsimp only
  rw [hc]

theorem parse_content_container (ctx : Ctx) {fields : List (String × Json)} {s : String}
    (ht : jlookup fields "type" = some (.str s))
    (hs : s ∈ ["list_item", "table_cell", "call_out_box"])
    {af : List (String × Json)} (ha : getAttrsVal fields = .obj af) (ig : Bool) :
    parse_content ctx (.obj fields) ig =
      match parse_content ctx (getContentVal fields) true with
      | .error e => .error e
      | .ok children => .ok (get_tag_open s af :: (children ++ [get_tag_close s af])) := by
  rw [parse_content_typed ctx ht ig]
  unfold dispatchStr
  simp only [List.mem_cons, List.not_mem_nil, or_false] at hs
  rcases hs with rfl | rfl | rfl <;>
    · rw [if_neg (by decide), if_neg (by decide), if_neg (by decide), if_pos (by decide), ha]

theorem parse_content_image (ctx : Ctx) {fields : List (String × Json)}
    (ht : jlookup fields "type" = some (.str "image")) (ig : Bool) :
    parse_content ctx (.obj fields) ig =
      match ctx.resolver (getAttrsVal fields) ctx.title ctx.workdir ctx.token ctx.user with
      | .error _ => .error .imageError
      | .ok fragment => .ok [fragment] := by
  rw [parse_content_typed ctx ht ig]
  unfold dispatchStr
  rw [if_neg (by decide), if_neg (by decide), if_neg (by decide),
    if_neg (by decide), if_pos rfl]

theorem parse_content_catalog16 (ctx : Ctx) {fields : List (String × Json)} {s : String}
    (ht : jlookup fields "type" = some (.str s)) (hs : s ∈ catalog16)
    {af : List (String × Json)} (ha : getAttrsVal fields = .obj af) (ig : Bool) :
    parse_content ctx (.obj fields) ig =
      match parse_content ctx (getContentVal fields) false with
      | .error e => .error e
      | .ok children => .ok (get_tag_open s af :: (children ++ [get_tag_close s af])) := by
  rw [parse_content_typed ctx ht ig]
  unfold dispatchStr
  simp only [catalog16, List.mem_cons, List.not_mem_nil, or_false] at hs
  rcases hs with rfl | rfl | rfl | rfl | rfl | rfl | rfl | rfl | rfl | rfl | rfl | rfl |
    rfl | rfl | rfl | rfl <;>
    · rw [if_neg (by decide), if_neg (by decide), if_neg (by decide), if_neg (by decide),
        if_neg (by decide), if_pos (by decide), ha]

theorem parse_content_unknown (ctx : Ctx) {fields : List (String × Json)} {s : String}
    (ht : jlookup fields "type" = some (.str s)) (hs : ¬ s ∈ allCatalogTypes) (ig : Bool) :
    parse_content ctx (.obj fields) ig = .ok [] := by
  rw [parse_content_typed ctx ht ig]
  unfold dispatchStr
  rw [if_neg (fun h => hs (by subst h; decide)),
    if_neg (fun h => hs (by subst h; decide)),
    if_neg (fun h => hs (by subst h; decide)),
    if_neg (fun h => by
      simp only [List.mem_cons, List.not_mem_nil, or_false] at h
      rcases h with rfl | rfl | rfl <;> exact hs (by decide)),
    if_neg (fun h => hs (by subst h; decide)),
    if_neg (fun h => hs (by
      simp only [allCatalogTypes, List.mem_append]
      exact Or.inr h))]

/-! ### `parse` fails with `MalformedDocument` iff the spec condition holds,
absent dynamic errors -/

theorem parseResult_malformed_iff (resolver : Resolver) (token user : Option String)
    (decoded : Option Json) (title workdir : Option String)
    (hdyn : resHasDyn (parseResult resolver token user decoded title workdir) = false) :
    (resIsMalformed (parseResult resolver token user decoded title workdir) = true ↔
      spec_malformed_condition decoded = true) := by
  cases decoded with
  | none => simp [parseResult, resIsMalformed, spec_malformed_condition]
  | some b =>
    cases b with
    | null => simp [parseResult, pyContains, resHasDyn, PyError.isMalformed] at hdyn
    | bool v => simp [parseResult, pyContains, resHasDyn, PyError.isMalformed] at hdyn
    | num v => simp [parseResult, pyContains, resHasDyn, PyError.isMalformed] at hdyn
    | arr xs =>
      cases hin : xs.any fun x => x.isStrVal "doc" with
      | false =>
        simp [parseResult, pyContains, hin, resIsMalformed, spec_malformed_condition, lacksField]
      | true =>
        simp [parseResult, pyContains, pyGet, hin, resHasDyn, PyError.isMalformed] at hdyn
    | str sv =>
      cases hin : containsSub "doc".data sv.data with
      | false =>
        simp [parseResult, pyContains, hin, resIsMalformed, spec_malformed_condition, lacksField]
      | true =>
        simp [parseResult, pyContains, pyGet, hin, resHasDyn, PyError.isMalformed] at hdyn
    | obj f =>
      cases hd : jlookup f "doc" with
      | none =>
        simp [parseResult, pyContains, hd, resIsMalformed, spec_malformed_condition, lacksField]
      | some d =>
        cases d with
        | null =>
          simp [parseResult, pyContains, pyGet, hd, resHasDyn, PyError.isMalformed] at hdyn
        | bool v =>
          simp [parseResult, pyContains, pyGet, hd, resHasDyn, PyError.isMalformed] at hdyn
        | num v =>
          simp [parseResult, pyContains, pyGet, hd, resHasDyn, PyError.isMalformed] at hdyn
        | arr xs =>
          cases hin : xs.any fun x => x.isStrVal "content" with
          | false =>
            simp [parseResult, pyContains, pyGet, hd, hin, resIsMalformed,
              spec_malformed_condition, lacksField, getFieldD]
          | true =>
            simp [parseResult, pyContains, pyGet, hd, hin, resHasDyn, PyError.isMalformed] at hdyn
        | str sv =>
          cases hin : containsSub "content".data sv.data with
          | false =>
            simp [parseResult, pyContains, pyGet, hd, hin, resIsMalformed,
              spec_malformed_condition, lacksField, getFieldD]
          | true =>
            simp [parseResult, pyContains, pyGet, hd, hin, resHasDyn, PyError.isMalformed] at hdyn
        | obj df =>
          cases hc : jlookup df "content" with
          | none =>
            simp [parseResult, pyContains, pyGet, hd, hc, resIsMalformed,
              spec_malformed_condition, lacksField, getFieldD]
          | some cv =>
            cases hp : parse_content ⟨resolver, title, workdir, token, user⟩ cv false with
            | ok body =>
              have htl : typelessReached cv = false := by
                cases h2 : typelessReached cv with
                | false => rfl
                | true =>
                  have := @parse_content_of_typeless
                    ⟨resolver, title, workdir, token, user⟩ cv false h2
                  rw [hp] at this
                  cases this
              simp [parseResult, pyContains, pyGet, hd, hc, hp, htl, resIsMalformed,
                spec_malformed_condition, lacksField, getFieldD, assemble]
            | error e =>
              cases e with
              | malformed m =>
                have htl : typelessReached cv = true := parse_content_malformed hp
                simp [parseResult, pyContains, pyGet, hd, hc, hp, htl, resIsMalformed,
                  spec_malformed_condition, lacksField, getFieldD]
              | keyError k =>
                simp [parseResult, pyContains, pyGet, hd, hc, hp, resHasDyn,
                  PyError.isMalformed] at hdyn
              | typeError =>
                simp [parseResult, pyContains, pyGet, hd, hc, hp, resHasDyn,
                  PyError.isMalformed] at hdyn
              | imageError =>
                simp [parseResult, pyContains, pyGet, hd, hc, hp, resHasDyn,
                  PyError.isMalformed] at hdyn

theorem runList_one (g : Json → Except PyError (List String)) (x : Json) :
    runList g [x] = match g x with | .error e => .error e | .ok a => .ok a := by
  cases hx : g x <;> simp [runList, hx]

/-! ## The claims -/

/-- Claim C1 (amended): `parse` fails with `MalformedDocument` if and only if
the payload is not parseable as JSON, or the parsed object lacks `doc`, or
`doc` lacks `content`, or a node object reached during traversal lacks a
`type` field — provided the run does not instead abort with a different
uncaught error (a `KeyError` from a `check_list_item` without
`attrs`/`checked`, a `TypeError`/`AttributeError` from a non-mapping
payload, `doc`, `marks` or `attrs` value, or an exception escaping the
image handler), which can pre-empt the validation. -/
theorem c1_theorem (resolver : Resolver) (st : ModState) (decoded : Option Json)
    (title workdir access_token user_id : Option String)
    (hdyn : resHasDyn (parse resolver st decoded title workdir access_token user_id).2 = false) :
    (resIsMalformed (parse resolver st decoded title workdir access_token user_id).2 = true ↔
      spec_malformed_condition decoded = true) :=
  parseResult_malformed_iff resolver _ _ decoded title workdir hdyn

/-- Claim C1, witness: on a document whose only node is a non-empty object
without a `type` field, the run has no dynamic error, the spec condition
holds, and `parse` indeed fails with `MalformedDocument`. -/
theorem c1_witness :
    resHasDyn (parse okResolver st0 (some typelessNodeDoc) none none none none).2 = false ∧
    (resIsMalformed (parse okResolver st0 (some typelessNodeDoc) none none none none).2 = true ↔
      spec_malformed_condition (some typelessNodeDoc) = true) :=
  ⟨rfl, c1_theorem okResolver st0 (some typelessNodeDoc) none none none none rfl⟩

/-- Claim C1, counterexample: on a parseable document with `doc` and
`doc.content` present, whose content holds a `check_list_item` without
`attrs` followed by a non-empty object without a `type` field, the claimed
condition holds (a typeless node is in the traversal's reach), yet the code
aborts with an uncaught `KeyError` at the `check_list_item` — not with
`MalformedDocument` — so the stated equivalence fails. -/
theorem c1_counterexample :
    spec_malformed_condition (some brokenChecklistDoc) = true ∧
    (parse okResolver st0 (some brokenChecklistDoc) none none none none).2 =
      .error (.keyError "attrs") ∧
    resIsMalformed (parse okResolver st0 (some brokenChecklistDoc) none none none none).2 =
      false :=
  ⟨rfl, rfl, rfl⟩

/-- Claim C9: a falsy element of a content sequence (`None`, `False`, `0`,
`''`, `[]`, the empty dict), or one that is neither a dict nor a list (a
non-empty string, a non-zero number, `True`), makes `parse_content` return
immediately with no output and no error. -/
theorem c9_theorem (ctx : Ctx) (j : Json) (flag : Bool)
    (h : j.isFalsy = true ∨ (j.isArrB = false ∧ j.isObjB = false)) :
    parse_content ctx j flag = .ok [] := by
  rcases h with h | ⟨h1, h2⟩
  · exact parse_content_falsy ctx h flag
  · exact parse_content_scalar ctx h1 h2 flag

/-- Claim C9, witness: a bare non-empty string in content position is
silently tolerated, as is an empty dict. -/
theorem c9_witness :
    ((Json.str "boxnote").isArrB = false ∧ (Json.str "boxnote").isObjB = false) ∧
    parse_content ctx0 (.str "boxnote") true = .ok [] ∧
    (Json.obj []).isFalsy = true ∧
    parse_content ctx0 (.obj []) false = .ok [] :=
  ⟨⟨rfl, rfl⟩, c9_theorem ctx0 (.str "boxnote") true (Or.inr ⟨rfl, rfl⟩),
   rfl, c9_theorem ctx0 (.obj []) false (Or.inl rfl)⟩

/-- Claim C10: a `check_list_item` whose `attrs` is absent, or whose `attrs`
dict lacks `checked`, aborts conversion with an uncaught `KeyError`
(not `MalformedDocument`, not silence); when `checked` is present the open
tag is emitted with arguments `checked`/`X` if the value is truthy and
`''`/`'  '` otherwise, and the children are rendered with suppression
forced on. -/
theorem c10_theorem (ctx : Ctx) (fields : List (String × Json)) (flag : Bool)
    (ht : jlookup fields "type" = some (.str "check_list_item")) :
    (jlookup fields "attrs" = none →
      parse_content ctx (.obj fields) flag = .error (.keyError "attrs")) ∧
    (∀ af, jlookup fields "attrs" = some (.obj af) → jlookup af "checked" = none →
      parse_content ctx (.obj fields) flag = .error (.keyError "checked")) ∧
    (∀ af cv frags, jlookup fields "attrs" = some (.obj af) →
      jlookup af "checked" = some cv →
      parse_content ctx (getContentVal fields) true = .ok frags →
      parse_content ctx (.obj fields) flag =
        .ok (get_tag_open "check_list_item"
              [("checked", .str (if cv.truthy then "checked" else "")),
               ("x", .str (if cv.truthy then "X" else "  "))]
              :: (frags ++ [get_tag_close "check_list_item" []]))) := by
  refine ⟨fun ha => parse_content_cli_no_attrs ctx ht ha flag,
    fun af ha hc => parse_content_cli_no_checked ctx ht ha hc flag,
    fun af cv frags ha hc hch => ?_⟩
  rw [parse_content_check_list_item ctx ht ha hc flag, hch]

/-- Claim C10, witness: a `check_list_item` with no `attrs` raises
`KeyError`, and an unchecked one renders with the `''`/`'  '` arguments and
suppressed children. -/
theorem c10_witness :
    parse_content ctx0 (.obj [("type", .str "check_list_item")]) false =
      .error (.keyError "attrs") ∧
    parse_content ctx0 (.obj [("type", .str "check_list_item"),
        ("attrs", .obj [("checked", .bool false)]),
        ("content", .arr [textNode "todo"])]) false =
      .ok (get_tag_open "check_list_item" [("checked", .str ""), ("x", .str "  ")]
            :: (["<text>", "todo", "</text>"] ++ [get_tag_close "check_list_item" []])) :=
  ⟨(c10_theorem ctx0 [("type", .str "check_list_item")] false rfl).1 rfl,
   (c10_theorem ctx0 [("type", .str "check_list_item"),
      ("attrs", .obj [("checked", .bool false)]),
      ("content", .arr [textNode "todo"])] false rfl).2.2
     [("checked", .bool false)] (.bool false) ["<text>", "todo", "</text>"] rfl rfl rfl⟩

/-- Claim C2: a paragraph directly inside a `check_list_item`, `list_item`,
`table_cell` or `call_out_box` renders only its inline content with no
wrapping paragraph tag (the container recurses with the suppress flag
forced on), while the same paragraph at top level (flag off) is wrapped in
an open/close paragraph tag pair. -/
theorem c2_theorem (ctx : Ctx) (inner : Json) (frags : List String)
    (h : parse_content ctx inner false = .ok frags) :
    (∀ s, s ∈ ["list_item", "table_cell", "call_out_box"] →
      parse_content ctx (.obj [("type", .str s),
          ("content", .arr [paragraphNode inner])]) false =
        .ok (get_tag_open s [] :: (frags ++ [get_tag_close s []]))) ∧
    parse_content ctx (.obj [("type", .str "check_list_item"),
        ("attrs", .obj [("checked", .bool true)]),
        ("content", .arr [paragraphNode inner])]) false =
      .ok (get_tag_open "check_list_item" [("checked", .str "checked"), ("x", .str "X")]
            :: (frags ++ [get_tag_close "check_list_item" []])) ∧
    parse_content ctx (paragraphNode inner) false =
      .ok (get_tag_open "paragraph" [("alignment", .str "left")]
            :: (frags ++ [get_tag_close "paragraph" []])) := by
  have hpara : parse_content ctx (paragraphNode inner) true = .ok frags := by
    have ht : jlookup [("type", Json.str "paragraph"), ("content", inner)] "type" =
        some (.str "paragraph") := rfl
    rw [show paragraphNode inner = Json.obj [("type", .str "paragraph"), ("content", inner)]
      from rfl]
    rw [parse_content_paragraph_suppressed ctx ht]
    exact h
  have harr : parse_content ctx (.arr [paragraphNode inner]) true = .ok frags := by
    rw [parse_content_arr, runList_one]
    rw [hpara]
  refine ⟨?_, ?_, ?_⟩
  · intro s hs
    have ht : jlookup [("type", Json.str s), ("content", .arr [paragraphNode inner])]
        "type" = some (.str s) := rfl
    rw [parse_content_container ctx ht hs rfl false]
    rw [show getContentVal [("type", Json.str s), ("content", .arr [paragraphNode inner])] =
      .arr [paragraphNode inner] from rfl]
    rw [harr]
  · have ht : jlookup [("type", Json.str "check_list_item"),
        ("attrs", Json.obj [("checked", Json.bool true)]),
        ("content", Json.arr [paragraphNode inner])] "type" =
        some (.str "check_list_item") := rfl
    rw [parse_content_check_list_item ctx ht rfl rfl false]
    rw [show getContentVal [("type", Json.str "check_list_item"),
      ("attrs", .obj [("checked", .bool true)]),
      ("content", .arr [paragraphNode inner])] = .arr [paragraphNode inner] from rfl]
    rw [harr]
    simp [Json.truthy, Json.isFalsy]
  · have ht : jlookup [("type", Json.str "paragraph"), ("content", inner)] "type" =
        some (.str "paragraph") := rfl
    rw [show paragraphNode inner = Json.obj [("type", .str "paragraph"), ("content", inner)]
      from rfl]
    rw [parse_content_paragraph ctx ht]
    rw [show computeAlignment (getMarksVal [("type", Json.str "paragraph"),
      ("content", inner)]) = .ok (.str "left") from rfl]
    rw [show getContentVal [("type", Json.str "paragraph"), ("content", inner)] = inner
      from rfl]
    rw [h]

/-- Claim C2, witness: a `list_item` holding one paragraph holding text
`Item` renders the item wrapper tags around the bare inline fragments,
while the same paragraph at top level is wrapped in paragraph tags. -/
theorem c2_witness :
    parse_content ctx0 (.obj [("type", .str "list_item"),
        ("content", .arr [paragraphNode (.arr [textNode "Item"])])]) false =
      .ok (get_tag_open "list_item" []
            :: (["<text>", "Item", "</text>"] ++ [get_tag_close "list_item" []])) ∧
    parse_content ctx0 (paragraphNode (.arr [textNode "Item"])) false =
      .ok (get_tag_open "paragraph" [("alignment", .str "left")]
            :: (["<text>", "Item", "</text>"] ++ [get_tag_close "paragraph" []])) :=
  ⟨(c2_theorem ctx0 (.arr [textNode "Item"]) ["<text>", "Item", "</text>"] rfl).1
      "list_item" (by decide),
   (c2_theorem ctx0 (.arr [textNode "Item"]) ["<text>", "Item", "</text>"] rfl).2.2⟩

/-- Claim C3 (amended): every catalog type other than `paragraph` and the
four suppressing containers recurses into its children with the suppress
flag reset to `false` (the Python call site omits the argument, so the
default applies), not unchanged from its own caller; consequently only a
paragraph directly inside one of the four containers is unwrapped — a
paragraph separated from the container by an intervening catalog node is
wrapped normally. -/
theorem c3_theorem (ctx : Ctx) (s : String) (inner : Json) (frags : List String)
    (flag : Bool) (hs : s ∈ catalog16)
    (h : parse_content ctx inner false = .ok frags) :
    parse_content ctx (.obj [("type", .str s), ("content", inner)]) flag =
      .ok (get_tag_open s [] :: (frags ++ [get_tag_close s []])) := by
  have ht : jlookup [("type", Json.str s), ("content", inner)] "type" =
      some (.str s) := rfl
  rw [parse_content_catalog16 ctx ht hs rfl flag]
  rw [show getContentVal [("type", Json.str s), ("content", inner)] = inner from rfl]
  rw [h]

/-- Claim C3, witness: a `blockquote` reached with the suppress flag on
still renders its children from a flag-off recursion. -/
theorem c3_witness :
    ("blockquote" ∈ catalog16) ∧
    parse_content ctx0 (.obj [("type", .str "blockquote"), ("content", .null)]) true =
      .ok (get_tag_open "blockquote" [] :: ([] ++ [get_tag_close "blockquote" []])) :=
  ⟨by decide, c3_theorem ctx0 "blockquote" .null [] true (by decide) rfl⟩

set_option maxRecDepth 4000 in
/-- Claim C3, counterexample: in a `table_cell` containing a `blockquote`
containing a paragraph with text `Deep`, the paragraph has a suppressing
ancestor (`table_cell`), yet the output does contain a wrapping paragraph
open tag — because `blockquote` resets the flag to `false` instead of
keeping the `true` it received. -/
theorem c3_counterexample :
    containsSub "<p style=\"text-align: left\">".data
      (resOuts (parse okResolver st0 (some deepParagraphDoc) none none none none).2).data =
      true := by decide

/-- Claim C4: a node whose `type` is outside the recognized catalog
contributes no fragment and no error, its children are not rendered
(whatever they hold), and a sibling node still renders as if alone. -/
theorem c4_theorem (ctx : Ctx) (flag : Bool) (s : String) (c sib : Json)
    (hs : ¬ s ∈ allCatalogTypes) :
    parse_content ctx (.obj [("type", .str s), ("content", c)]) flag = .ok [] ∧
    parse_content ctx (.arr [.obj [("type", .str s), ("content", c)], sib]) flag =
      parse_content ctx sib flag := by
  have hts : jlookup [("type", Json.str s), ("content", c)] "type" = some (.str s) := rfl
  have h1 : parse_content ctx (.obj [("type", .str s), ("content", c)]) flag = .ok [] :=
    parse_content_unknown ctx hts hs flag
  refine ⟨h1, ?_⟩
  rw [parse_content_arr]
  cases hsib : parse_content ctx sib flag with
  | error e => simp [runList, h1, hsib]
  | ok b => simp [runList, h1, hsib]

/-- Claim C4, witness: an `unknown_future_type` node whose children contain
a typeless object (which would be a hard error if visited) is skipped
whole, and its sibling text node renders normally. -/
theorem c4_witness :
    (¬ "unknown_future_type" ∈ allCatalogTypes) ∧
    parse_content ctx0 (.obj [("type", .str "unknown_future_type"),
        ("content", .arr [.obj [("no_type_here", .num 1)]])]) false = .ok [] ∧
    parse_content ctx0 (.arr [.obj [("type", .str "unknown_future_type"),
        ("content", .arr [.obj [("no_type_here", .num 1)]])], textNode "Sib"]) false =
      parse_content ctx0 (textNode "Sib") false :=
  ⟨by decide,
   (c4_theorem ctx0 false "unknown_future_type" (.arr [.obj [("no_type_here", .num 1)]])
      (textNode "Sib") (by decide)).1,
   (c4_theorem ctx0 false "unknown_future_type" (.arr [.obj [("no_type_here", .num 1)]])
      (textNode "Sib") (by decide)).2⟩

/-- Claim C5: for an unsuppressed paragraph whose `marks` value is a list,
when the alignment scan succeeds the emitted open tag carries exactly the
scanned alignment; that alignment is `left` when the list holds no
alignment mark, and the value of the last alignment mark in mark order
otherwise. -/
theorem c5_theorem (ctx : Ctx) (fields : List (String × Json)) (ms : List Json)
    (v : Json) (frags : List String)
    (ht : jlookup fields "type" = some (.str "paragraph"))
    (hm : getMarksVal fields = .arr ms)
    (ha : computeAlignment (.arr ms) = .ok v)
    (hc : parse_content ctx (getContentVal fields) false = .ok frags) :
    parse_content ctx (.obj fields) false =
      .ok (get_tag_open "paragraph" [("alignment", v)]
            :: (frags ++ [get_tag_close "paragraph" []])) ∧
    (lastAlignMark ms = none → v = .str "left") ∧
    (∀ m, lastAlignMark ms = some m → v = alignValOf m) := by
  have hval := alignFold_ok ms (.str "left") v ha
  refine ⟨?_, ?_, ?_⟩
  · rw [parse_content_paragraph ctx ht, hm, ha, hc]
  · intro hnone
    rw [hnone] at hval
    simpa using hval
  · intro m hsome
    rw [hsome] at hval
    simpa using hval

/-- Claim C5, witness: with two alignment marks (`center` then `right`),
the emitted paragraph open tag carries the last one's value `right`, which
is exactly the alignment value of the last alignment mark. -/
theorem c5_witness :
    parse_content ctx0 (.obj [("type", .str "paragraph"),
        ("marks", .arr [alignMark "center", alignMark "right"]),
        ("content", .arr [textNode "T"])]) false =
      .ok (get_tag_open "paragraph" [("alignment", .str "right")]
            :: (["<text>", "T", "</text>"] ++ [get_tag_close "paragraph" []])) ∧
    Json.str "right" = alignValOf (alignMark "right") :=
  ⟨(c5_theorem ctx0 [("type", .str "paragraph"),
      ("marks", .arr [alignMark "center", alignMark "right"]),
      ("content", .arr [textNode "T"])] [alignMark "center", alignMark "right"]
      (.str "right") ["<text>", "T", "</text>"] rfl rfl rfl rfl).1,
   (c5_theorem ctx0 [("type", .str "paragraph"),
      ("marks", .arr [alignMark "center", alignMark "right"]),
      ("content", .arr [textNode "T"])] [alignMark "center", alignMark "right"]
      (.str "right") ["<text>", "T", "</text>"] rfl rfl rfl rfl).2.2
     (alignMark "right") rfl⟩

set_option maxRecDepth 4000 in
/-- Claim C6 (amended): the final cleanup pass is a single textual
replacement of the literal `'<p style="text-align: left"></p>'`; an empty
paragraph whose alignment is not `left` is untouched.  On a document with a
text paragraph, an empty default-aligned paragraph and another text
paragraph, the returned HTML contains no occurrence of the left-aligned
empty-paragraph literal while both text paragraphs render. -/
theorem c6_theorem :
    containsSub emptyParaLit
      (resOuts (parse okResolver st0 (some threeParaDoc) none none none none).2).data =
      false ∧
    containsSub "Hello".data
      (resOuts (parse okResolver st0 (some threeParaDoc) none none none none).2).data =
      true ∧
    containsSub "World".data
      (resOuts (parse okResolver st0 (some threeParaDoc) none none none none).2).data =
      true := by
  refine ⟨by decide, by decide, by decide⟩

set_option maxRecDepth 4000 in
/-- Claim C6, counterexample: a valid document whose only node is an empty
paragraph carrying a `center` alignment mark yields a returned HTML string
that still contains the empty paragraph
`'<p style="text-align: center"></p>'` — an open paragraph tag immediately
followed by its close tag — because the cleanup removes only the `left`
literal. -/
theorem c6_counterexample :
    containsSub "<p style=\"text-align: center\"></p>".data
      (resOuts (parse okResolver st0 (some centerEmptyParaDoc) none none none none).2).data =
      true := by decide

/-- Claim C7: evaluating `parse` on a structurally valid document holding a
text paragraph, an image node and another text paragraph, with a resolver
whose call raises, aborts the whole conversion with the resolver's failure
— it returns no HTML string at all, so the failure is not isolated to the
image node. -/
theorem c7_theorem :
    (parse failResolver st0 (some imageBetweenParasDoc) none none
      (some "tok") (some "uid")).2 = .error .imageError := rfl

/-- Claim C8 (amended): when both `access_token` and `user_id` are truthy
(non-`None`, non-empty), the result of `parse` — returned state and output —
is independent of the module-level state left by earlier invocations; with a
falsy `access_token` (or `user_id`) the global token (or user) retained
from a previous call is reused instead. -/
theorem c8_theorem (resolver : Resolver) (st st2 : ModState) (decoded : Option Json)
    (title workdir access_token user_id : Option String)
    (h1 : optTruthy access_token = true) (h2 : optTruthy user_id = true) :
    parse resolver st decoded title workdir access_token user_id =
      parse resolver st2 decoded title workdir access_token user_id := by
  unfold parse
  simp only [h1, h2, if_true]

/-- Claim C8, witness: with truthy auth arguments, two runs from different
prior module states agree. -/
theorem c8_witness :
    optTruthy (some "T") = true ∧ optTruthy (some "V") = true ∧
    parse tokenResolver ⟨some "AAAA", some "U"⟩ (some singleImageDoc) none none
        (some "T") (some "V") =
      parse tokenResolver ⟨some "BBBB", some "W"⟩ (some singleImageDoc) none none
        (some "T") (some "V") :=
  ⟨rfl, rfl, c8_theorem tokenResolver ⟨some "AAAA", some "U"⟩ ⟨some "BBBB", some "W"⟩
    (some singleImageDoc) none none (some "T") (some "V") rfl rfl⟩

set_option maxRecDepth 4000 in
/-- Claim C8, counterexample: two calls to `parse` with byte-identical
arguments (`access_token = None`, `user_id = None`) but different
module-level state left by earlier invocations produce different outputs:
the retained global token reaches the image resolver and hence the HTML. -/
theorem c8_counterexample :
    (parse tokenResolver ⟨some "AAAA", some "U"⟩ (some singleImageDoc) none none
      none none).2 ≠
    (parse tokenResolver ⟨some "BBBB", some "U"⟩ (some singleImageDoc) none none
      none none).2 := by
  intro hcon
  have e1 : containsSub "AAAA".data
      (resOuts (parse tokenResolver ⟨some "AAAA", some "U"⟩ (some singleImageDoc)
        none none none none).2).data = true := by decide
  have e2 : containsSub "AAAA".data
      (resOuts (parse tokenResolver ⟨some "BBBB", some "U"⟩ (some singleImageDoc)
        none none none none).2).data = false := by decide
  rw [hcon] at e1
  rw [e1] at e2
  cases e2

end BoxnoteHtml
